import Mathlib

/-!
# Coinstr coordination engine: shallow embedding and verification

This file embeds the coordination engine of the coinstr SDK
(`crates/coinstr-sdk/src/client.rs`): the event reducer `handle_event`, the
live-subscription and pending-event delivery paths, and the coordination API
operations (`save_policy`, `approve`, `approve_with_signed_psbt`, `finalize`,
`delete_proposal_by_id`, `share_signer_to_multiple_public_keys`, `send_event`).

Modelling conventions:
* 256-bit identifiers, public keys, payloads and ciphertext plaintexts are
  `Nat` codes; hashing of events into ids is external, so fresh event ids are
  explicit parameters of the operations that build events.
* Each operation samples the wall clock once: the `now : Nat` parameter stands
  for the (seconds-granularity) timestamp of the operation.
* Encryption is symbolic: a ciphertext remembers the key it was produced
  under, and decryption succeeds exactly when the matching key is supplied.
* Relay sends can fail: each send consults an explicit `Bool` outcome
  (a `Bool` parameter, or a `Nat → Bool` oracle for loops over several sends).
* Database writes never fail; the Rust `?` on decode/decrypt/tag-extraction
  errors is modelled by an error component in the result, while the store
  changes already performed are kept (SQLite commits are not rolled back).
-/

namespace Coinstr

/-- Relay event tags (the subset used by the engine): recipient `p` tags,
event-reference `e` tags, NIP-40 expiration tags, and contact-list entries. -/
inductive NTag where
  | pubKey (pk : Nat)
  | event (id : Nat)
  | expiration (ts : Nat)
  | contact (pk : Nat)
deriving DecidableEq, Repr

/-- Nostr-connect (NIP-46) request kinds routed by the remote-signing channel. -/
inductive NCRequest where
  | disconnect
  | getPublicKey
  | other (code : Nat)
deriving DecidableEq, Repr

/-- A policy body: name, description and miniscript descriptor (all coded). -/
structure PolicyData where
  name : Nat
  description : Nat
  descriptor : Nat
deriving DecidableEq, Repr

/-- A proposal body: either a spending proposal or a proof of reserve. -/
inductive ProposalData where
  | spending (amount description psbt : Nat)
  | proofOfReserve (message psbt : Nat)
deriving DecidableEq, Repr

/-- A completed proposal body: a broadcast transaction or a finished proof. -/
inductive CompletedData where
  | spending (txid tx : Nat)
  | proofOfReserve (message psbt descriptor : Nat)
deriving DecidableEq, Repr

/-- Plaintext payload carried (encrypted) in an event's content. -/
inductive Payload where
  | policy (p : PolicyData)
  | proposal (p : ProposalData)
  | approved (a : Nat)
  | completed (c : CompletedData)
  | secretKey (k : Nat)
  | sharedSigner (s : Nat)
  | signer (s : Nat)
  | metadataBody (m : Nat)
  | nip46 (req : Option NCRequest) (respondable : Bool)
  | empty
deriving DecidableEq, Repr

/-- Event content: plain, encrypted under a (shared or own) keypair
(`encrypt_with_keys`), or NIP-04 encrypted between a sender and a recipient. -/
inductive Content where
  | plain (p : Payload)
  | encKeys (k : Nat) (p : Payload)
  | encNip04 (sender receiver : Nat) (p : Payload)
deriving DecidableEq, Repr

/-- A signed relay event (id, author public key, kind, created_at, tags,
content). Signature validity is assumed: the transport verifies it. -/
structure NEvent where
  id : Nat
  pubkey : Nat
  kind : Nat
  createdAt : Nat
  tags : List NTag
  content : Content
deriving DecidableEq, Repr

/-- The engine user's key pair, represented by its public key. -/
structure UserKeys where
  publicKey : Nat
deriving DecidableEq, Repr

/-- Modelled from the spec: event kinds are distinct small integers
(`constants.rs` is not part of the shown sources); the reused standard kinds
keep their nostr wire values. -/
def SHARED_KEY_KIND : Nat := 9288

/-- Policy event kind. -/
def POLICY_KIND : Nat := 9289

/-- Proposal event kind. -/
def PROPOSAL_KIND : Nat := 9290

/-- Approved-proposal event kind. -/
def APPROVED_PROPOSAL_KIND : Nat := 9291

/-- Completed-proposal event kind. -/
def COMPLETED_PROPOSAL_KIND : Nat := 9292

/-- Signers event kind. -/
def SIGNERS_KIND : Nat := 9294

/-- Shared-signers event kind. -/
def SHARED_SIGNERS_KIND : Nat := 9295

/-- Standard nostr kind: metadata. -/
def kindMetadata : Nat := 0

/-- Standard nostr kind: contact list. -/
def kindContactList : Nat := 3

/-- Standard nostr kind: event deletion. -/
def kindEventDeletion : Nat := 5

/-- Standard nostr kind: nostr connect (NIP-46). -/
def kindNostrConnect : Nat := 24133

/-- Modelled from the spec: `APPROVED_PROPOSAL_EXPIRATION` (in `constants.rs`,
not part of the shown sources) is 7 days, in seconds. -/
def APPROVED_PROPOSAL_EXPIRATION : Nat := 7 * 24 * 60 * 60

/-- `decrypt_with_keys`: symbolic decryption with a keypair; succeeds exactly
when the ciphertext was produced under the same key. -/
def decrypt_with_keys (k : Nat) : Content → Option Payload
  | .encKeys k' p => if k' = k then some p else none
  | _ => none

/-- `nip04::decrypt` as recipient `selfPk` of a message from `senderPk`. -/
def nip04_decrypt (selfPk senderPk : Nat) : Content → Option Payload
  | .encNip04 s r p => if s = senderPk ∧ r = selfPk then some p else none
  | _ => none

/-- Notifications surfaced to the user (types.rs `Notification`). -/
inductive Notification where
  | newPolicy (policyId : Nat)
  | newProposal (proposalId : Nat)
  | newApproval (proposalId publicKey : Nat)
  | newSharedSigner (sharedSignerId ownerPublicKey : Nat)
  | newCompletedProposal (completedId : Nat)
deriving DecidableEq, Repr

/-- Messages pushed on the engine's broadcast channel. -/
inductive Message where
  | notification (n : Notification)
  | walletSyncCompleted (policyId : Nat)
deriving DecidableEq, Repr

/-- The engine's error taxonomy (the variants the embedded operations hit). -/
inductive HError where
  | policyNotFound
  | proposalNotFound
  | sharedKeysNotFound
  | notEnoughPublicKeys
  | decryptFailed
  | publicKeyNotFound
  | signerIdNotFound
  | signerNotFound
  | cantGenerateNostrConnectResponse
  | electrumEndpointNotSet
  | sendFailed
  | approvedProposalNotFound
  | unexpectedProposal
  | invalidDescriptor
  | dbError
deriving DecidableEq, Repr

/-- Observable external effects of an operation: an event published to the
relay pool, a raw transaction broadcast to the chain indexer, a NIP-46
response sent to an app, or a direct message. -/
inductive Output where
  | publish (e : NEvent)
  | broadcastTx (tx : Nat)
  | nip46Response (relay receiver : Nat)
  | directMsg (receiver : Nat)
deriving DecidableEq, Repr

/-- An approval row: `(proposal_id, author, payload, created_at)`, keyed in the
store by the approval event id. -/
structure ApprovalRow where
  proposalId : Nat
  publicKey : Nat
  approvedPayload : Nat
  timestamp : Nat
deriving DecidableEq, Repr

/-- A policy row: the decrypted policy and its cosigner nostr public keys. -/
structure PolicyRow where
  policy : PolicyData
  nostrPubkeys : List Nat
deriving DecidableEq, Repr

/-- A nostr-connect session, keyed by the app's public key. -/
structure NCSession where
  appPublicKey : Nat
  uriPublicKey : Nat
  relayUrl : Nat
deriving DecidableEq, Repr

/-- A persisted nostr-connect request (stored with `approved = false`). -/
structure ConnectRequestRow where
  appPublicKey : Nat
  request : Option NCRequest
  respondable : Bool
  timestamp : Nat
  approvedFlag : Bool
deriving DecidableEq, Repr

/-- Modelled from the spec: the Local Store (`db::store::Store`, not part of
the shown sources) as durable key/value indices. Association lists keyed by
`Nat` ids model the SQL tables; the deferred-event queue and the tombstone
set are lists. -/
structure Store where
  events : List (Nat × NEvent)
  deletedIds : List Nat
  sharedKeys : List (Nat × Nat)
  policies : List (Nat × PolicyRow)
  proposals : List (Nat × Nat × ProposalData)
  approvals : List (Nat × ApprovalRow)
  completedProposals : List (Nat × Nat × CompletedData)
  pendingEvents : List NEvent
  scheduledForSync : List Nat
  notifications : List (Nat × Notification)
  signers : List (Nat × Nat)
  mySharedSigners : List (Nat × Nat × Nat)
  sharedSigners : List (Nat × Nat × Nat)
  contacts : List Nat
  metadata : List (Nat × Nat)
  connectSessions : List NCSession
  connectPreAuth : List (Nat × Nat)
  connectRequests : List (Nat × ConnectRequestRow)
deriving DecidableEq, Repr

/-- First-match association-list lookup. -/
def lookupA {α : Type} : List (Nat × α) → Nat → Option α
  | [], _ => none
  | (k, v) :: rest, key => if k = key then some v else lookupA rest key

/-- Remove every binding of a key from an association list. -/
def eraseA {α : Type} (l : List (Nat × α)) (key : Nat) : List (Nat × α) :=
  l.filter (fun kv => kv.1 != key)

/-- The empty store (fresh database). -/
def emptyStore : Store :=
  { events := [], deletedIds := [], sharedKeys := [], policies := []
    proposals := [], approvals := [], completedProposals := []
    pendingEvents := [], scheduledForSync := [], notifications := []
    signers := [], mySharedSigners := [], sharedSigners := []
    contacts := [], metadata := [], connectSessions := []
    connectPreAuth := [], connectRequests := [] }

/-- Modelled from the spec: `db.save_event` persists a raw event in the event
log; re-saving an already-present id is a no-op. -/
def saveEvent (st : Store) (e : NEvent) : Store :=
  if (lookupA st.events e.id).isSome then st
  else { st with events := (e.id, e) :: st.events }

/-- Modelled from the spec: `db.save_pending_event` enqueues a raw inbound
event whose dependency is missing. -/
def savePendingEvent (st : Store) (e : NEvent) : Store :=
  { st with pendingEvents := st.pendingEvents ++ [e] }

/-- Modelled from the spec: `db.save_shared_key` stores the shared key of a
policy. -/
def saveSharedKey (st : Store) (policyId k : Nat) : Store :=
  { st with sharedKeys := (policyId, k) :: st.sharedKeys }

/-- `db.shared_key_exists_for_policy`. -/
def shared_key_exists_for_policy (st : Store) (policyId : Nat) : Bool :=
  (lookupA st.sharedKeys policyId).isSome

/-- `db.policy_exists`. -/
def policy_exists (st : Store) (id : Nat) : Bool :=
  (lookupA st.policies id).isSome

/-- `db.proposal_exists`. -/
def proposal_exists (st : Store) (id : Nat) : Bool :=
  (lookupA st.proposals id).isSome

/-- `db.approved_proposal_exists`. -/
def approved_proposal_exists (st : Store) (id : Nat) : Bool :=
  (lookupA st.approvals id).isSome

/-- `db.completed_proposal_exists`. -/
def completed_proposal_exists (st : Store) (id : Nat) : Bool :=
  (lookupA st.completedProposals id).isSome

/-- `db.event_was_deleted`: membership in the tombstone set. -/
def event_was_deleted (st : Store) (id : Nat) : Bool :=
  st.deletedIds.contains id

/-- Modelled from the spec: `db.save_policy` persists a policy with its
cosigner public keys. -/
def save_policy_row (st : Store) (id : Nat) (p : PolicyData)
    (pubkeys : List Nat) : Store :=
  { st with policies := (id, ⟨p, pubkeys⟩) :: st.policies }

/-- Modelled from the spec: `db.save_proposal`. -/
def save_proposal_row (st : Store) (proposalId policyId : Nat)
    (p : ProposalData) : Store :=
  { st with proposals := (proposalId, policyId, p) :: st.proposals }

/-- Modelled from the spec: `db.save_approved_proposal`, keyed by the approval
event id. -/
def save_approved_proposal_row (st : Store)
    (proposalId publicKey approvalId a ts : Nat) : Store :=
  { st with approvals := (approvalId, ⟨proposalId, publicKey, a, ts⟩) :: st.approvals }

/-- Modelled from the spec: `db.save_completed_proposal`. -/
def save_completed_proposal_row (st : Store) (completedId policyId : Nat)
    (c : CompletedData) : Store :=
  { st with completedProposals := (completedId, policyId, c) :: st.completedProposals }

/-- Modelled from the spec: `db.delete_proposal` removes the proposal row and
(one serializable transaction) its approvals. -/
def delete_proposal_row (st : Store) (proposalId : Nat) : Store :=
  { st with proposals := eraseA st.proposals proposalId
            approvals := st.approvals.filter (fun kv => kv.2.proposalId != proposalId) }

/-- Modelled from the spec: `db.schedule_for_sync` sets the per-policy
on-chain resync flag. -/
def schedule_for_sync (st : Store) (policyId : Nat) : Store :=
  if st.scheduledForSync.contains policyId then st
  else { st with scheduledForSync := policyId :: st.scheduledForSync }

/-- Modelled from the spec: `db.save_notification`. -/
def save_notification_row (st : Store) (eventId : Nat) (n : Notification) : Store :=
  { st with notifications := (eventId, n) :: st.notifications }

/-- Modelled from the spec: `db.save_signer`. -/
def save_signer_row (st : Store) (id s : Nat) : Store :=
  { st with signers := (id, s) :: st.signers }

/-- Modelled from the spec: `db.save_my_shared_signer`
`(signer_id, shared_signer_event_id, recipient)`. -/
def save_my_shared_signer_row (st : Store) (signerId eventId pk : Nat) : Store :=
  { st with mySharedSigners := (signerId, eventId, pk) :: st.mySharedSigners }

/-- Modelled from the spec: `db.save_shared_signer`
`(event_id, owner, payload)`. -/
def save_shared_signer_row (st : Store) (eventId owner s : Nat) : Store :=
  { st with sharedSigners := (eventId, owner, s) :: st.sharedSigners }

/-- Modelled from the spec: `db.save_contacts` replaces the contact set. -/
def save_contacts_row (st : Store) (pks : List Nat) : Store :=
  { st with contacts := pks }

/-- Modelled from the spec: `db.set_metadata` upserts a profile. -/
def set_metadata_row (st : Store) (pk m : Nat) : Store :=
  { st with metadata := (pk, m) :: eraseA st.metadata pk }

/-- `db.nostr_connect_session_exists`. -/
def nostr_connect_session_exists (st : Store) (pk : Nat) : Bool :=
  st.connectSessions.any (fun s => s.appPublicKey == pk)

/-- `db.get_nostr_connect_session`. -/
def get_nostr_connect_session (st : Store) (pk : Nat) : Option NCSession :=
  st.connectSessions.find? (fun s => s.appPublicKey == pk)

/-- Modelled from the spec: `db.delete_nostr_connect_session`. -/
def delete_nostr_connect_session_row (st : Store) (pk : Nat) : Store :=
  { st with connectSessions := st.connectSessions.filter (fun s => s.appPublicKey != pk) }

/-- `db.is_nostr_connect_session_pre_authorized`: within the window set by
`auto_approve`. -/
def is_nostr_connect_session_pre_authorized (st : Store) (now pk : Nat) : Bool :=
  match lookupA st.connectPreAuth pk with
  | some untilTs => decide (now < untilTs)
  | none => false

/-- Modelled from the spec: `db.save_nostr_connect_request` persists an
unapproved request. -/
def save_nostr_connect_request_row (st : Store) (eventId pk : Nat)
    (req : Option NCRequest) (respondable : Bool) (ts : Nat) : Store :=
  { st with connectRequests :=
      (eventId, ⟨pk, req, respondable, ts, false⟩) :: st.connectRequests }

/-- Modelled from the spec: `db.delete_generic_event_id` adds the id to the
tombstone set and removes the corresponding entity, cascading (a deleted
policy removes its proposals, approvals and completions). -/
def delete_generic_event_id (st : Store) (id : Nat) : Store :=
  { st with
    deletedIds := if st.deletedIds.contains id then st.deletedIds else id :: st.deletedIds
    policies := eraseA st.policies id
    proposals := (eraseA st.proposals id).filter (fun kv => kv.2.1 != id)
    approvals := (eraseA st.approvals id).filter (fun kv => kv.2.proposalId != id)
    completedProposals := (eraseA st.completedProposals id).filter (fun kv => kv.2.1 != id)
    signers := eraseA st.signers id
    sharedSigners := eraseA st.sharedSigners id }

/-- Modelled from the spec: `util::extract_first_event_id` returns the first
`e` tag. -/
def extract_first_event_id (e : NEvent) : Option Nat :=
  e.tags.findSome? (fun t => match t with | .event id => some id | _ => none)

/-- Modelled from the spec: `util::extract_tags_by_kind(TagKind::E)` in order. -/
def extract_e_tags (e : NEvent) : List Nat :=
  e.tags.filterMap (fun t => match t with | .event id => some id | _ => none)

/-- Modelled from the spec: `util::extract_first_public_key` returns the
first `p` tag. -/
def extract_first_public_key (e : NEvent) : Option Nat :=
  e.tags.findSome? (fun t => match t with | .pubKey pk => some pk | _ => none)

/-- Modelled from the spec: `util::extract_tags_by_kind(TagKind::P)`. -/
def extract_p_tags (e : NEvent) : List NTag :=
  e.tags.filter (fun t => match t with | .pubKey _ => true | _ => false)

/-- First NIP-40 expiration tag of an event, if any. -/
def first_expiration (e : NEvent) : Option Nat :=
  e.tags.findSome? (fun t => match t with | .expiration ts => some ts | _ => none)

/-- `Event::is_expired` (nostr library): the expiration tag is before `now`. -/
def is_expired (e : NEvent) (now : Nat) : Bool :=
  match first_expiration e with
  | some ts => decide (ts < now)
  | none => false

/-- Result of one `handle_event` delivery: the store after the delivery (Rust
database writes performed before an error are kept), the error if the
delivery returned `Err`, the notification message returned on `Ok`, and the
external sends performed. -/
structure HRes where
  store : Store
  err : Option HError
  msg : Option Message
  out : List Output
deriving DecidableEq, Repr

/-- SHARED_KEY handler (client.rs:1532-1540): decrypt to the recipient and
store the key for the tagged policy only if absent. -/
def handle_shared_key (u : UserKeys) (st : Store) (e : NEvent) : HRes :=
  match extract_first_event_id e with
  | none => ⟨st, some .policyNotFound, none, []⟩
  | some policyId =>
    if shared_key_exists_for_policy st policyId then ⟨st, none, none, []⟩
    else
      match nip04_decrypt u.publicKey e.pubkey e.content with
      | some (.secretKey k) => ⟨saveSharedKey st policyId k, none, none, []⟩
      | _ => ⟨st, some .decryptFailed, none, []⟩

/-- POLICY handler (client.rs:1541-1560): require the shared key, else defer;
decrypt the body, extract the cosigner tags, persist, notify. -/
def handle_policy (st : Store) (e : NEvent) : HRes :=
  match lookupA st.sharedKeys e.id with
  | some k =>
    match decrypt_with_keys k e.content with
    | some (.policy p) =>
      let pubkeys := e.tags.filterMap
        (fun t => match t with | .pubKey pk => some pk | _ => none)
      if pubkeys.isEmpty then ⟨st, none, none, []⟩
      else
        let st := save_policy_row st e.id p pubkeys
        let n := Notification.newPolicy e.id
        ⟨save_notification_row st e.id n, none, some (.notification n), []⟩
    | _ => ⟨st, some .decryptFailed, none, []⟩
  | none => ⟨savePendingEvent st e, none, none, []⟩

/-- PROPOSAL handler (client.rs:1561-1574): require the parent policy id tag
and the shared key, else defer; persist and notify. -/
def handle_proposal (st : Store) (e : NEvent) : HRes :=
  match extract_first_event_id e with
  | some policyId =>
    match lookupA st.sharedKeys policyId with
    | some k =>
      match decrypt_with_keys k e.content with
      | some (.proposal p) =>
        let st := save_proposal_row st e.id policyId p
        let n := Notification.newProposal e.id
        ⟨save_notification_row st e.id n, none, some (.notification n), []⟩
      | _ => ⟨st, some .decryptFailed, none, []⟩
    | none => ⟨savePendingEvent st e, none, none, []⟩
  | none => ⟨st, none, none, []⟩

/-- APPROVED_PROPOSAL handler (client.rs:1575-1609): require the proposal and
policy tags and the shared key, else defer; persist keyed by the event id and
notify. -/
def handle_approved (st : Store) (e : NEvent) : HRes :=
  match extract_first_event_id e with
  | some proposalId =>
    match (extract_e_tags e).get? 1 with
    | some policyId =>
      match lookupA st.sharedKeys policyId with
      | some k =>
        match decrypt_with_keys k e.content with
        | some (.approved a) =>
          let st := save_approved_proposal_row st proposalId e.pubkey e.id a e.createdAt
          let n := Notification.newApproval proposalId e.pubkey
          ⟨save_notification_row st e.id n, none, some (.notification n), []⟩
        | _ => ⟨st, some .decryptFailed, none, []⟩
      | none => ⟨savePendingEvent st e, none, none, []⟩
    | none => ⟨st, none, none, []⟩
  | none => ⟨st, none, none, []⟩

/-- COMPLETED_PROPOSAL handler (client.rs:1610-1640): delete the source
proposal, schedule the policy for resync when the event is at most 60 s old,
then require the shared key, else defer. -/
def handle_completed (now : Nat) (st : Store) (e : NEvent) : HRes :=
  match extract_first_event_id e with
  | some proposalId =>
    let st := delete_proposal_row st proposalId
    match (extract_e_tags e).get? 1 with
    | some policyId =>
      let st := if e.createdAt + 60 ≥ now then schedule_for_sync st policyId else st
      match lookupA st.sharedKeys policyId with
      | some k =>
        match decrypt_with_keys k e.content with
        | some (.completed c) =>
          ⟨save_completed_proposal_row st e.id policyId c, none, none, []⟩
        | _ => ⟨st, some .decryptFailed, none, []⟩
      | none => ⟨savePendingEvent st e, none, none, []⟩
    | none => ⟨st, none, none, []⟩
  | none => ⟨st, none, none, []⟩

/-- SIGNERS handler (client.rs:1641-1644): decrypt to the own key, persist
privately. -/
def handle_signers (u : UserKeys) (st : Store) (e : NEvent) : HRes :=
  match decrypt_with_keys u.publicKey e.content with
  | some (.signer s) => ⟨save_signer_row st e.id s, none, none, []⟩
  | _ => ⟨st, some .decryptFailed, none, []⟩

/-- SHARED_SIGNERS handler (client.rs:1645-1666): author = self records an
outgoing share; otherwise decrypt to self, persist the incoming shared
signer and notify. -/
def handle_shared_signers (u : UserKeys) (st : Store) (e : NEvent) : HRes :=
  match extract_first_public_key e with
  | none => ⟨st, some .publicKeyNotFound, none, []⟩
  | some pk =>
    if e.pubkey == u.publicKey then
      match extract_first_event_id e with
      | none => ⟨st, some .signerIdNotFound, none, []⟩
      | some signerId => ⟨save_my_shared_signer_row st signerId e.id pk, none, none, []⟩
    else
      match nip04_decrypt u.publicKey e.pubkey e.content with
      | some (.sharedSigner s) =>
        let st := save_shared_signer_row st e.id e.pubkey s
        let n := Notification.newSharedSigner e.id e.pubkey
        ⟨save_notification_row st e.id n, none, some (.notification n), []⟩
      | _ => ⟨st, some .decryptFailed, none, []⟩

/-- EventDeletion handler (client.rs:1667-1672): tombstone and cascade-delete
every referenced event id. -/
def handle_deletion (st : Store) (e : NEvent) : HRes :=
  ⟨e.tags.foldl
    (fun s t => match t with | .event id => delete_generic_event_id s id | _ => s) st,
   none, none, []⟩

/-- ContactList handler (client.rs:1673-1680): replace the contact set. -/
def handle_contact_list (st : Store) (e : NEvent) : HRes :=
  ⟨save_contacts_row st (e.tags.filterMap
    (fun t => match t with | .contact pk => some pk | _ => none)), none, none, []⟩

/-- Metadata handler (client.rs:1681-1683): upsert the author profile. -/
def handle_metadata (st : Store) (e : NEvent) : HRes :=
  match e.content with
  | .plain (.metadataBody m) => ⟨set_metadata_row st e.pubkey m, none, none, []⟩
  | _ => ⟨st, some .decryptFailed, none, []⟩

/-- NostrConnect handler (client.rs:1684-1740), reached only when a session
exists: route Disconnect / GetPublicKey / other requests; pre-authorized
sessions are auto-answered, others persist a `ConnectRequest`. NIP-46
responses are modelled as always delivered (no claim depends on their send
failing). -/
def handle_nostr_connect (u : UserKeys) (now : Nat) (st : Store) (e : NEvent) : HRes :=
  match nip04_decrypt u.publicKey e.pubkey e.content with
  | some (.nip46 req respondable) =>
    match req with
    | none => ⟨st, none, none, []⟩
    | some .disconnect =>
      match get_nostr_connect_session st e.pubkey with
      | none => ⟨st, some .dbError, none, []⟩
      | some s =>
        ⟨delete_nostr_connect_session_row st e.pubkey, none, none,
         [.nip46Response s.relayUrl s.uriPublicKey]⟩
    | some .getPublicKey =>
      match get_nostr_connect_session st e.pubkey with
      | none => ⟨st, some .dbError, none, []⟩
      | some s =>
        if respondable then ⟨st, none, none, [.nip46Response s.relayUrl s.uriPublicKey]⟩
        else ⟨st, some .cantGenerateNostrConnectResponse, none, []⟩
    | some (.other _) =>
      if is_nostr_connect_session_pre_authorized st now e.pubkey then
        match get_nostr_connect_session st e.pubkey with
        | none => ⟨st, some .dbError, none, []⟩
        | some s =>
          if respondable then ⟨st, none, none, [.nip46Response s.relayUrl s.uriPublicKey]⟩
          else ⟨st, some .cantGenerateNostrConnectResponse, none, []⟩
      else
        ⟨save_nostr_connect_request_row st e.id e.pubkey req respondable e.createdAt,
         none, none, []⟩
  | _ => ⟨st, some .decryptFailed, none, []⟩

/-- The kind dispatch of `Coinstr::handle_event` (client.rs:1532-1742),
applied to the store as it stands after the raw-event persist step; the
existence guards are part of the branch conditions exactly as in the
source's `else if` chain. -/
def handle_event_dispatch (u : UserKeys) (now : Nat) (st : Store) (e : NEvent) : HRes :=
  if e.kind == SHARED_KEY_KIND then handle_shared_key u st e
  else if e.kind == POLICY_KIND && !policy_exists st e.id then handle_policy st e
  else if e.kind == PROPOSAL_KIND && !proposal_exists st e.id then handle_proposal st e
  else if e.kind == APPROVED_PROPOSAL_KIND && !approved_proposal_exists st e.id then
    handle_approved st e
  else if e.kind == COMPLETED_PROPOSAL_KIND && !completed_proposal_exists st e.id then
    handle_completed now st e
  else if e.kind == SIGNERS_KIND then handle_signers u st e
  else if e.kind == SHARED_SIGNERS_KIND then handle_shared_signers u st e
  else if e.kind == kindEventDeletion then handle_deletion st e
  else if e.kind == kindContactList then handle_contact_list st e
  else if e.kind == kindMetadata then handle_metadata st e
  else if e.kind == kindNostrConnect && nostr_connect_session_exists st e.pubkey then
    handle_nostr_connect u now st e
  else ⟨st, none, none, []⟩

/-- The event reducer `Coinstr::handle_event` (client.rs:1520-1743):
tombstone check, raw-event persist in the event log (except the ephemeral
NostrConnect kind), then the kind dispatch on the saved store. -/
def handle_event (u : UserKeys) (now : Nat) (st : Store) (e : NEvent) : HRes :=
  if event_was_deleted st e.id then ⟨st, none, none, []⟩ else
  handle_event_dispatch u now
    (if e.kind != kindNostrConnect then saveEvent st e else st) e

/-- The live-subscription delivery path (client.rs:1472-1486): an inbound
relay event is dropped (with a log line only) when `is_expired`, otherwise fed
to `handle_event`. -/
def sync_on_event (u : UserKeys) (now : Nat) (st : Store) (e : NEvent) : HRes :=
  if is_expired e now then ⟨st, none, none, []⟩
  else handle_event u now st e

/-- One cycle of the pending-event retry loop (client.rs:1344-1369): each
deferred event is re-fed to `handle_event` (no expiration check); on `Ok` the
returned notification is pushed on the channel, on `Err` it is only logged. -/
def handle_pending_events_once (u : UserKeys) (now : Nat) (st : Store) :
    Store × List Message :=
  st.pendingEvents.foldl
    (fun acc e =>
      let r := handle_event u now acc.1 e
      match r.err, r.msg with
      | none, some m => (r.store, acc.2 ++ [m])
      | _, _ => (r.store, acc.2))
    (st, [])

/-- A sequence of deliveries to the reducer: `(user keys, time, event)`
triples folded through `handle_event`, keeping only the store. -/
def handle_many (deliveries : List (UserKeys × Nat × NEvent)) (st : Store) : Store :=
  deliveries.foldl (fun s p => (handle_event p.1 p.2.1 s p.2.2).store) st

/-- `Coinstr::send_event` (client.rs:512-518): the raw event is saved to the
event log first, then the message is handed to the relay client; `sendOk`
is the outcome of that send. -/
def send_event (st : Store) (e : NEvent) (sendOk : Bool) :
    Store × List Output × Option HError :=
  let st := saveEvent st e
  if sendOk then (st, [.publish e], none) else (st, [], some .sendFailed)

/-- Modelled from the spec: descriptor parsing is delegated to the external
miniscript library; validity is abstracted to a nonzero descriptor code. -/
def descriptor_valid (d : Nat) : Bool := d != 0

/-- `Policy::from_desc_or_policy` (external `coinstr-core`): builds the policy
body, failing on an invalid descriptor. -/
def from_desc_or_policy (name description descriptor : Nat) : Option PolicyData :=
  if descriptor_valid descriptor then some ⟨name, description, descriptor⟩ else none

/-- The shared-key publication loop inside `save_policy` (client.rs:835-852):
one SHARED_KEY event per cosigner, NIP-04 encrypted to that cosigner, tagged
with the policy id and the cosigner; the first failed send aborts the loop. -/
def publish_shared_keys (u : UserKeys) (now policyEid sharedKey : Nat)
    (skEid : Nat → Nat) (net : Nat → Bool) :
    Store → List Output → Nat → List Nat → Store × List Output × Option HError
  | st, outs, _, [] => (st, outs, none)
  | st, outs, i, pk :: rest =>
    let ev : NEvent :=
      ⟨skEid i, u.publicKey, SHARED_KEY_KIND, now,
       [.event policyEid, .pubKey pk],
       .encNip04 u.publicKey pk (.secretKey sharedKey)⟩
    match send_event st ev (net i) with
    | (st', out', some er) => (st', outs ++ out', some er)
    | (st', out', none) =>
      publish_shared_keys u now policyEid sharedKey skEid net st' (outs ++ out') (i + 1) rest

/-- `Coinstr::save_policy` (client.rs:803-863). Fresh randomness and event
hashing are external, so the generated shared key, the policy event id and
the shared-key event ids are parameters; `net i` is the outcome of the i-th
relay send (the cosigner loop first, then the policy event). The policy and
its shared key are cached only after every publish has succeeded. -/
def save_policy (u : UserKeys) (now sharedKey policyEid : Nat) (skEid : Nat → Nat)
    (net : Nat → Bool) (st : Store) (name description descriptor : Nat)
    (nostrPubkeys : List Nat) : Store × List Output × Except HError Nat :=
  if nostrPubkeys.length < 2 then (st, [], .error .notEnoughPublicKeys)
  else
    match from_desc_or_policy name description descriptor with
    | none => (st, [], .error .invalidDescriptor)
    | some policy =>
      let tags : List NTag := nostrPubkeys.map (fun p => .pubKey p)
      let policyEvent : NEvent :=
        ⟨policyEid, sharedKey, POLICY_KIND, now, tags, .encKeys sharedKey (.policy policy)⟩
      match publish_shared_keys u now policyEid sharedKey skEid net st [] 0 nostrPubkeys with
      | (st1, outs, some er) => (st1, outs, .error er)
      | (st1, outs, none) =>
        match send_event st1 policyEvent (net nostrPubkeys.length) with
        | (st2, out2, some er) => (st2, outs ++ out2, .error er)
        | (st2, out2, none) =>
          let st3 := saveSharedKey st2 policyEid sharedKey
          let st4 := save_policy_row st3 policyEid policy nostrPubkeys
          (st4, outs ++ out2, .ok policyEid)

/-- `db.get_nostr_pubkeys`: cosigner public keys recorded with a policy. -/
def get_nostr_pubkeys (st : Store) (policyId : Nat) : List Nat :=
  match lookupA st.policies policyId with
  | some row => row.nostrPubkeys
  | none => []

/-- `Proposal::approve` (external `coinstr-core`): PSBT signing with the
user's derived key, abstracted to a payload code. -/
def approve_payload (p : ProposalData) (signerPk : Nat) : Nat :=
  match p with
  | .spending _ _ psbt => psbt + signerPk
  | .proofOfReserve _ psbt => psbt + signerPk

/-- `Proposal::approve_with_signed_psbt` (external `coinstr-core`):
verification of an externally signed PSBT, abstracted to a nonzero code. -/
def approve_with_signed_psbt_external (p : ProposalData) (signedPsbt : Nat) :
    Option Nat :=
  match p with
  | .spending _ _ _ => if signedPsbt != 0 then some signedPsbt else none
  | .proofOfReserve _ _ => if signedPsbt != 0 then some signedPsbt else none

/-- `Coinstr::approve` (client.rs:962-1014): look up proposal and policy, sign
the PSBT, then build the APPROVED_PROPOSAL event tagged with the cosigners,
the proposal, the policy and an expiration at `now + 7 days`, publish it, and
cache the approval. -/
def approve (u : UserKeys) (now eid : Nat) (sendOk : Bool) (st : Store)
    (proposalId : Nat) : Store × List Output × Except HError (Nat × Nat) :=
  match lookupA st.proposals proposalId with
  | none => (st, [], .error .proposalNotFound)
  | some (policyId, proposal) =>
    match lookupA st.policies policyId with
    | none => (st, [], .error .policyNotFound)
    | some _ =>
      let a : Nat := approve_payload proposal u.publicKey
      match lookupA st.sharedKeys policyId with
      | none => (st, [], .error .sharedKeysNotFound)
      | some k =>
        let tags : List NTag :=
          (get_nostr_pubkeys st policyId).map (fun p => NTag.pubKey p) ++
            [.event proposalId, .event policyId,
             .expiration (now + APPROVED_PROPOSAL_EXPIRATION)]
        let ev : NEvent :=
          ⟨eid, u.publicKey, APPROVED_PROPOSAL_KIND, now, tags, .encKeys k (.approved a)⟩
        match send_event st ev sendOk with
        | (st', outs, some er) => (st', outs, .error er)
        | (st', outs, none) =>
          (save_approved_proposal_row st' proposalId u.publicKey eid a now,
           outs, .ok (eid, a))

/-- `Coinstr::approve_with_signed_psbt` (client.rs:1016-1060): same event
shape as `approve` (expiration at `now + 7 days`), but the PSBT comes from
an external signer and no policy lookup is performed. -/
def approve_with_signed_psbt (u : UserKeys) (now eid : Nat) (sendOk : Bool)
    (st : Store) (proposalId signedPsbt : Nat) :
    Store × List Output × Except HError (Nat × Nat) :=
  match lookupA st.proposals proposalId with
  | none => (st, [], .error .proposalNotFound)
  | some (policyId, proposal) =>
    match approve_with_signed_psbt_external proposal signedPsbt with
    | none => (st, [], .error .unexpectedProposal)
    | some a =>
      match lookupA st.sharedKeys policyId with
      | none => (st, [], .error .sharedKeysNotFound)
      | some k =>
        let tags : List NTag :=
          (get_nostr_pubkeys st policyId).map (fun p => NTag.pubKey p) ++
            [.event proposalId, .event policyId,
             .expiration (now + APPROVED_PROPOSAL_EXPIRATION)]
        let ev : NEvent :=
          ⟨eid, u.publicKey, APPROVED_PROPOSAL_KIND, now, tags, .encKeys k (.approved a)⟩
        match send_event st ev sendOk with
        | (st', outs, some er) => (st', outs, .error er)
        | (st', outs, none) =>
          (save_approved_proposal_row st' proposalId u.publicKey eid a now,
           outs, .ok (eid, a))

/-- `db.get_approved_proposals_by_id`, approvals part: the approval payloads
recorded for a proposal. -/
def get_approvals_for_proposal (st : Store) (proposalId : Nat) : List Nat :=
  st.approvals.filterMap
    (fun kv => if kv.2.proposalId == proposalId then some kv.2.approvedPayload else none)

/-- `Proposal::finalize` (external `coinstr-core`): PSBT combination and
extraction. Modelled from the spec: succeeds when approvals suffice
(abstracted to a nonempty approval list), producing the matching completed
variant; only the Spending variant carries a transaction. -/
def proposal_finalize (p : ProposalData) (approvals : List Nat) :
    Option CompletedData :=
  if approvals.isEmpty then none
  else
    match p with
    | .spending _ _ psbt => some (.spending psbt psbt)
    | .proofOfReserve message psbt => some (.proofOfReserve message psbt 0)

/-- `Coinstr::delete_proposal_by_id` (client.rs:646-684): fetch the raw
proposal event, extract its policy, publish an EventDeletion under the shared
key (tagged with the proposal's `p` tags and the proposal id), then delete
the local proposal row. -/
def delete_proposal_by_id (now delEid : Nat) (sendOk : Bool) (st : Store)
    (proposalId : Nat) : Store × List Output × Option HError :=
  match lookupA st.events proposalId with
  | none => (st, [], some .dbError)
  | some ev =>
    if ev.kind != PROPOSAL_KIND then (st, [], some .proposalNotFound)
    else
      match extract_first_event_id ev with
      | none => (st, [], some .policyNotFound)
      | some policyId =>
        match lookupA st.sharedKeys policyId with
        | none => (st, [], some .sharedKeysNotFound)
        | some k =>
          let tags := extract_p_tags ev ++ [NTag.event proposalId]
          let dev : NEvent := ⟨delEid, k, kindEventDeletion, now, tags, .plain .empty⟩
          match send_event st dev sendOk with
          | (st', outs, some er) => (st', outs, some er)
          | (st', outs, none) => (delete_proposal_row st' proposalId, outs, none)

/-- `Coinstr::finalize` (client.rs:1129-1177): combine the approvals,
broadcast through the chain indexer (Spending only, requires an electrum
endpoint), publish the COMPLETED_PROPOSAL event under the shared key, run
`delete_proposal_by_id` (its errors are logged and ignored), delete the local
proposal row and cache the completed proposal keyed by the new event id. -/
def finalize (now completedEid delEid : Nat) (endpoint : Option Nat)
    (sendCompletedOk sendDelOk : Bool) (st : Store) (proposalId : Nat) :
    Store × List Output × Except HError CompletedData :=
  match lookupA st.proposals proposalId with
  | none => (st, [], .error .proposalNotFound)
  | some (policyId, proposal) =>
    let approvals := get_approvals_for_proposal st proposalId
    match lookupA st.sharedKeys policyId with
    | none => (st, [], .error .sharedKeysNotFound)
    | some k =>
      let pubkeys := get_nostr_pubkeys st policyId
      match proposal_finalize proposal approvals with
      | none => (st, [], .error .approvedProposalNotFound)
      | some completed =>
        let broadcastStep : Option (Store × List Output) :=
          match completed with
          | .spending _ tx =>
            match endpoint with
            | none => none
            | some _ => some (schedule_for_sync st policyId, [Output.broadcastTx tx])
          | _ => some (st, [])
        match broadcastStep with
        | none => (st, [], .error .electrumEndpointNotSet)
        | some (st0, out0) =>
          let tags := pubkeys.map (fun p => NTag.pubKey p) ++
            [NTag.event proposalId, NTag.event policyId]
          let ev : NEvent :=
            ⟨completedEid, k, COMPLETED_PROPOSAL_KIND, now, tags,
             .encKeys k (.completed completed)⟩
          match send_event st0 ev sendCompletedOk with
          | (st1, out1, some er) => (st1, out0 ++ out1, .error er)
          | (st1, out1, none) =>
            match delete_proposal_by_id now delEid sendDelOk st1 proposalId with
            | (st2, out2, _) =>
              let st3 := delete_proposal_row st2 proposalId
              let st4 := save_completed_proposal_row st3 completedEid policyId completed
              (st4, out0 ++ out1 ++ out2, .ok completed)

/-- `db.my_shared_signer_already_shared`. -/
def my_shared_signer_already_shared (st : Store) (signerId pk : Nat) : Bool :=
  st.mySharedSigners.any (fun t => t.1 == signerId && t.2.2 == pk)

/-- The recipient loop of `share_signer_to_multiple_public_keys`
(client.rs:1874-1893): already-shared recipients are skipped with a log line;
otherwise a SHARED_SIGNERS event is published and the share recorded; the
first failed send aborts. `net i` is the outcome of the send performed at
loop position `i`. -/
def share_signer_loop (u : UserKeys) (now signerId sharedSignerPayload : Nat)
    (ssEid : Nat → Nat) (net : Nat → Bool) :
    Store → List Output → Nat → List Nat → Store × List Output × Option HError
  | st, outs, _, [] => (st, outs, none)
  | st, outs, i, pk :: rest =>
    if my_shared_signer_already_shared st signerId pk then
      share_signer_loop u now signerId sharedSignerPayload ssEid net st outs (i + 1) rest
    else
      let ev : NEvent :=
        ⟨ssEid i, u.publicKey, SHARED_SIGNERS_KIND, now,
         [.event signerId, .pubKey pk],
         .encNip04 u.publicKey pk (.sharedSigner sharedSignerPayload)⟩
      match send_event st ev (net i) with
      | (st', out', some er) => (st', outs ++ out', some er)
      | (st', out', none) =>
        share_signer_loop u now signerId sharedSignerPayload ssEid net
          (save_my_shared_signer_row st' signerId (ssEid i) pk) (outs ++ out') (i + 1) rest

/-- `Coinstr::share_signer_to_multiple_public_keys` (client.rs:1861-1896):
an empty recipient list fails with `NotEnoughPublicKeys` before the signer is
even looked up; otherwise the signer is fetched and shared to each recipient
in turn. -/
def share_signer_to_multiple_public_keys (u : UserKeys) (now : Nat)
    (ssEid : Nat → Nat) (net : Nat → Bool) (st : Store) (signerId : Nat)
    (publicKeys : List Nat) : Store × List Output × Except HError Unit :=
  if publicKeys.isEmpty then (st, [], .error .notEnoughPublicKeys)
  else
    match lookupA st.signers signerId with
    | none => (st, [], .error .signerNotFound)
    | some s =>
      match share_signer_loop u now signerId s ssEid net st [] 0 publicKeys with
      | (st', outs, some er) => (st', outs, .error er)
      | (st', outs, none) => (st', outs, .ok ())

/-! ## Concrete fixtures used by witnesses and counterexamples -/

/-- A sample user (public key 100). -/
def uA : UserKeys := ⟨100⟩

/-- A store holding one spending proposal (id 11) for policy 7, and nothing
else: in particular no shared key for policy 7. -/
def c1Store : Store :=
  { emptyStore with proposals := [(11, 7, .spending 50 1 2)] }

/-- A COMPLETED_PROPOSAL event (id 21) referencing proposal 11 and policy 7,
encrypted under shared key 9 which the store above does not hold. -/
def c1Event : NEvent :=
  ⟨21, 55, COMPLETED_PROPOSAL_KIND, 1000, [.event 11, .event 7],
   .encKeys 9 (.completed (.spending 2 2))⟩

/-- A POLICY event (id 3) whose shared key is absent from the empty store. -/
def c1wEvent : NEvent :=
  ⟨3, 100, POLICY_KIND, 0, [.pubKey 101], .encKeys 9 (.policy ⟨1, 1, 5⟩)⟩

/-- An EventDeletion event (id 31) referencing event id 21. -/
def c2Del : NEvent := ⟨31, 100, kindEventDeletion, 0, [.event 21], .plain .empty⟩

/-- An unrelated POLICY event delivered between the deletion and the replay. -/
def c2Mid : NEvent :=
  ⟨32, 100, POLICY_KIND, 5, [.pubKey 101], .encKeys 9 (.policy ⟨1, 1, 5⟩)⟩

/-- The store after processing the deletion of event 21 and then one more
unrelated delivery. -/
def c2St2 : Store :=
  handle_many [(uA, 5, c2Mid)] (handle_event uA 0 emptyStore c2Del).store

/-- An event with the tombstoned id 21, replayed after the deletion. -/
def c2Evt : NEvent :=
  ⟨21, 55, COMPLETED_PROPOSAL_KIND, 0, [.event 11, .event 7],
   .encKeys 9 (.completed (.spending 2 2))⟩

/-- An APPROVED_PROPOSAL event (id 21) for proposal 11 / policy 7 with an
expiration tag at time 5, encrypted under shared key 9. -/
def c3Event : NEvent :=
  ⟨21, 55, APPROVED_PROPOSAL_KIND, 0, [.event 11, .event 7, .expiration 5],
   .encKeys 9 (.approved 4)⟩

/-- A store whose pending queue holds the approval event above and whose
shared-key index already has the key for policy 7 (it arrived while the
approval sat in the queue). -/
def c3Store : Store :=
  { emptyStore with pendingEvents := [c3Event], sharedKeys := [(7, 9)] }

/-- The raw PROPOSAL event (id 11) for policy 7, as recorded in the event
log. -/
def c4PropEvent : NEvent :=
  ⟨11, 9, PROPOSAL_KIND, 0, [.pubKey 101, .pubKey 102, .event 7],
   .encKeys 9 (.proposal (.spending 50 1 2))⟩

/-- A store ready for `finalize` of proposal 11: the proposal row, one
approval, the shared key of policy 7, the policy row and the raw proposal
event. -/
def c4Store : Store :=
  { emptyStore with
    proposals := [(11, 7, .spending 50 1 2)]
    approvals := [(25, ⟨11, 101, 8, 0⟩)]
    sharedKeys := [(7, 9)]
    policies := [(7, ⟨⟨1, 1, 5⟩, [101, 102]⟩)]
    events := [(11, c4PropEvent)] }

/-- The result of finalizing proposal 11 in `c4Store` with endpoint set and
all sends succeeding. -/
def c4Res : Store × List Output × Except HError CompletedData :=
  finalize 100 30 31 (some 1) true true c4Store 11

/-- A store holding a shared key (9) for policy 7. -/
def c6Store : Store := { emptyStore with sharedKeys := [(7, 9)] }

/-- A SHARED_KEY event for policy 7 carrying a different key (13). -/
def c6Event : NEvent :=
  ⟨22, 55, SHARED_KEY_KIND, 0, [.event 7, .pubKey 100],
   .encNip04 55 100 (.secretKey 13)⟩

/-- A send oracle that fails from the third send on (indices 0 and 1
succeed). -/
def c7Net : Nat → Bool := fun i => decide (i < 2)

/-- `save_policy` for two cosigners where both SHARED_KEY sends succeed but
the POLICY event send (the third send, index 2) fails. -/
def c7Res : Store × List Output × Except HError Nat :=
  save_policy uA 0 9 3 (fun i => 40 + i) c7Net emptyStore 1 1 5 [101, 102]

/-- The result of `approve` on proposal 11 in `c4Store` at time 50 with a
successful send. -/
def c8Res : Store × List Output × Except HError (Nat × Nat) :=
  approve uA 50 26 true c4Store 11

/-- The APPROVED_PROPOSAL event that `approve` publishes in the run above. -/
def c8Event : NEvent :=
  ⟨26, 100, APPROVED_PROPOSAL_KIND, 50,
   [.pubKey 101, .pubKey 102, .event 11, .event 7,
    .expiration (50 + APPROVED_PROPOSAL_EXPIRATION)],
   .encKeys 9 (.approved (2 + 100))⟩

/-- The result of `approve_with_signed_psbt` on proposal 11 in `c4Store`. -/
def c8bRes : Store × List Output × Except HError (Nat × Nat) :=
  approve_with_signed_psbt uA 50 27 true c4Store 11 6

/-- The APPROVED_PROPOSAL event published by `approve_with_signed_psbt` in
the run above. -/
def c8bEvent : NEvent :=
  ⟨27, 100, APPROVED_PROPOSAL_KIND, 50,
   [.pubKey 101, .pubKey 102, .event 11, .event 7,
    .expiration (50 + APPROVED_PROPOSAL_EXPIRATION)],
   .encKeys 9 (.approved 6)⟩

/-- A NostrConnect event from app public key 77, for which no session exists
in the empty store. -/
def c9Event : NEvent :=
  ⟨41, 77, kindNostrConnect, 0, [],
   .encNip04 77 100 (.nip46 (some .getPublicKey) true)⟩

/-! ## Helper lemmas about the store operations -/

@[simp]
theorem saveEvent_deletedIds (st : Store) (e : NEvent) :
    (saveEvent st e).deletedIds = st.deletedIds := by
  unfold saveEvent; split <;> rfl

@[simp]
theorem saveEvent_sharedKeys (st : Store) (e : NEvent) :
    (saveEvent st e).sharedKeys = st.sharedKeys := by
  unfold saveEvent; split <;> rfl

@[simp]
theorem saveEvent_policies (st : Store) (e : NEvent) :
    (saveEvent st e).policies = st.policies := by
  unfold saveEvent; split <;> rfl

@[simp]
theorem saveEvent_proposals (st : Store) (e : NEvent) :
    (saveEvent st e).proposals = st.proposals := by
  unfold saveEvent; split <;> rfl

@[simp]
theorem saveEvent_approvals (st : Store) (e : NEvent) :
    (saveEvent st e).approvals = st.approvals := by
  unfold saveEvent; split <;> rfl

@[simp]
theorem saveEvent_completedProposals (st : Store) (e : NEvent) :
    (saveEvent st e).completedProposals = st.completedProposals := by
  unfold saveEvent; split <;> rfl

@[simp]
theorem saveEvent_pendingEvents (st : Store) (e : NEvent) :
    (saveEvent st e).pendingEvents = st.pendingEvents := by
  unfold saveEvent; split <;> rfl

@[simp]
theorem saveEvent_scheduledForSync (st : Store) (e : NEvent) :
    (saveEvent st e).scheduledForSync = st.scheduledForSync := by
  unfold saveEvent; split <;> rfl

@[simp]
theorem saveEvent_connectSessions (st : Store) (e : NEvent) :
    (saveEvent st e).connectSessions = st.connectSessions := by
  unfold saveEvent; split <;> rfl

@[simp]
theorem schedule_for_sync_deletedIds (st : Store) (p : Nat) :
    (schedule_for_sync st p).deletedIds = st.deletedIds := by
  unfold schedule_for_sync; split <;> rfl

@[simp]
theorem schedule_for_sync_sharedKeys (st : Store) (p : Nat) :
    (schedule_for_sync st p).sharedKeys = st.sharedKeys := by
  unfold schedule_for_sync; split <;> rfl

@[simp]
theorem delete_generic_event_id_sharedKeys (st : Store) (id : Nat) :
    (delete_generic_event_id st id).sharedKeys = st.sharedKeys := rfl

/-- `delete_generic_event_id` only ever grows the tombstone set. -/
theorem delete_generic_event_id_deletedIds_mono (st : Store) (id x : Nat)
    (hx : x ∈ st.deletedIds) : x ∈ (delete_generic_event_id st id).deletedIds := by
  unfold delete_generic_event_id
  dsimp only
  split
  · exact hx
  · exact List.mem_cons_of_mem _ hx

/-- `delete_generic_event_id` puts its argument in the tombstone set. -/
theorem delete_generic_event_id_deletedIds_self (st : Store) (id : Nat) :
    id ∈ (delete_generic_event_id st id).deletedIds := by
  unfold delete_generic_event_id
  dsimp only
  split
  · rename_i h
    simpa using h
  · exact List.mem_cons_self _ _

/-- The tag fold of the EventDeletion branch keeps existing tombstones. -/
theorem delete_fold_deletedIds_mono (tags : List NTag) (st : Store) (x : Nat)
    (hx : x ∈ st.deletedIds) :
    x ∈ (tags.foldl
      (fun s t => match t with | .event id => delete_generic_event_id s id | _ => s)
      st).deletedIds := by
  induction tags generalizing st with
  | nil => exact hx
  | cons t rest ih =>
    cases t with
    | event id => exact ih _ (delete_generic_event_id_deletedIds_mono st id x hx)
    | pubKey pk => exact ih _ hx
    | expiration ts => exact ih _ hx
    | contact pk => exact ih _ hx

/-- The tag fold of the EventDeletion branch tombstones every referenced id. -/
theorem delete_fold_deletedIds_adds (tags : List NTag) (st : Store) (x : Nat)
    (hx : NTag.event x ∈ tags) :
    x ∈ (tags.foldl
      (fun s t => match t with | .event id => delete_generic_event_id s id | _ => s)
      st).deletedIds := by
  induction tags generalizing st with
  | nil => cases hx
  | cons t rest ih =>
    rcases List.mem_cons.mp hx with h | h
    · subst h
      exact delete_fold_deletedIds_mono rest _ x
        (delete_generic_event_id_deletedIds_self st x)
    · cases t <;> exact ih _ h

/-- The tag fold of the EventDeletion branch never touches the shared keys. -/
theorem delete_fold_sharedKeys (tags : List NTag) (st : Store) :
    (tags.foldl
      (fun s t => match t with | .event id => delete_generic_event_id s id | _ => s)
      st).sharedKeys = st.sharedKeys := by
  induction tags generalizing st with
  | nil => rfl
  | cons t rest ih =>
    cases t with
    | event id => rw [List.foldl_cons]; exact (ih _).trans rfl
    | pubKey pk => exact ih _
    | expiration ts => exact ih _
    | contact pk => exact ih _

/-- A tombstoned event id makes `handle_event` a no-op. -/
theorem handle_event_tombstone_drop (u : UserKeys) (now : Nat) (st : Store)
    (e : NEvent) (h : event_was_deleted st e.id = true) :
    handle_event u now st e = ⟨st, none, none, []⟩ := by
  unfold handle_event
  rw [h]
  rfl

@[simp]
theorem policy_exists_saveEvent (st : Store) (e : NEvent) (x : Nat) :
    policy_exists (saveEvent st e) x = policy_exists st x := by
  simp [policy_exists]

@[simp]
theorem proposal_exists_saveEvent (st : Store) (e : NEvent) (x : Nat) :
    proposal_exists (saveEvent st e) x = proposal_exists st x := by
  simp [proposal_exists]

@[simp]
theorem approved_proposal_exists_saveEvent (st : Store) (e : NEvent) (x : Nat) :
    approved_proposal_exists (saveEvent st e) x = approved_proposal_exists st x := by
  simp [approved_proposal_exists]

@[simp]
theorem completed_proposal_exists_saveEvent (st : Store) (e : NEvent) (x : Nat) :
    completed_proposal_exists (saveEvent st e) x = completed_proposal_exists st x := by
  simp [completed_proposal_exists]

@[simp]
theorem shared_key_exists_saveEvent (st : Store) (e : NEvent) (x : Nat) :
    shared_key_exists_for_policy (saveEvent st e) x =
      shared_key_exists_for_policy st x := by
  simp [shared_key_exists_for_policy]

@[simp]
theorem delete_proposal_row_sharedKeys (st : Store) (p : Nat) :
    (delete_proposal_row st p).sharedKeys = st.sharedKeys := rfl

/-! ## Claim theorems -/

/-- C5: `save_policy` with fewer than 2 cosigner public keys fails with
`NotEnoughPublicKeys` and leaves the store untouched: no shared key is
generated or stored, no event is saved or published, and no policy is saved
(client.rs:816-818, the check precedes every effect). -/
theorem save_policy_not_enough_public_keys (u : UserKeys)
    (now sharedKey policyEid : Nat) (skEid : Nat → Nat) (net : Nat → Bool)
    (st : Store) (name description descriptor : Nat) (nostrPubkeys : List Nat)
    (h : nostrPubkeys.length < 2) :
    save_policy u now sharedKey policyEid skEid net st name description
      descriptor nostrPubkeys = (st, [], .error .notEnoughPublicKeys) := by
  unfold save_policy
  rw [if_pos h]

/-- Witness for C5 at a concrete input: one cosigner. -/
theorem save_policy_not_enough_public_keys_witness :
    save_policy uA 0 9 3 (fun i => 40 + i) (fun _ => true) emptyStore 1 1 5
      [101] = (emptyStore, [], .error .notEnoughPublicKeys) :=
  save_policy_not_enough_public_keys uA 0 9 3 (fun i => 40 + i) (fun _ => true)
    emptyStore 1 1 5 [101] (by decide)

/-- C10: `share_signer_to_multiple_public_keys` with an empty recipient list
fails with `NotEnoughPublicKeys` for every store — in particular before the
signer lookup (the error hits even when the signer exists or is absent),
publishing nothing and changing nothing (client.rs:1866-1868). -/
theorem share_signer_to_multiple_public_keys_empty (u : UserKeys) (now : Nat)
    (ssEid : Nat → Nat) (net : Nat → Bool) (st : Store) (signerId : Nat) :
    share_signer_to_multiple_public_keys u now ssEid net st signerId [] =
      (st, [], .error .notEnoughPublicKeys) := by
  unfold share_signer_to_multiple_public_keys
  rfl

/-- C9: a NostrConnect event from an app public key with no session in the
store leaves the whole store unchanged and produces no output: the raw event
is not written to the event log (client.rs:1526), the session guard fails
(client.rs:1684-1686), and the call returns `Ok(None)`. -/
theorem nostr_connect_no_session_frame (u : UserKeys) (now : Nat) (st : Store)
    (e : NEvent) (hk : e.kind = kindNostrConnect)
    (hs : nostr_connect_session_exists st e.pubkey = false) :
    handle_event u now st e = ⟨st, none, none, []⟩ := by
  unfold handle_event handle_event_dispatch
  rw [hk]
  simp [hs, kindNostrConnect, SHARED_KEY_KIND, POLICY_KIND, PROPOSAL_KIND,
    APPROVED_PROPOSAL_KIND, COMPLETED_PROPOSAL_KIND, SIGNERS_KIND,
    SHARED_SIGNERS_KIND, kindEventDeletion, kindContactList, kindMetadata]

/-- Witness for C9 at a concrete input. -/
theorem nostr_connect_no_session_frame_witness :
    handle_event uA 0 emptyStore c9Event = ⟨emptyStore, none, none, []⟩ :=
  nostr_connect_no_session_frame uA 0 emptyStore c9Event rfl rfl

/-- C1 counterexample: a COMPLETED_PROPOSAL delivery whose shared key is
absent is deferred without error — but that same delivery deletes the source
proposal (a domain entity) and sets the policy's resync flag before
deferring (client.rs:1614 and 1619-1621 precede the shared-key check at
1623), contradicting "no domain entity ... is created, deleted, or modified
by that delivery". -/
theorem completed_deferral_mutates_store :
    (lookupA c1Store.proposals 11).isSome = true ∧
    (handle_event uA 1000 c1Store c1Event).err = none ∧
    (handle_event uA 1000 c1Store c1Event).store.pendingEvents = [c1Event] ∧
    lookupA (handle_event uA 1000 c1Store c1Event).store.proposals 11 = none ∧
    (handle_event uA 1000 c1Store c1Event).store.scheduledForSync = [7] := by
  decide

/-- C1 (amended): a POLICY, PROPOSAL or APPROVED_PROPOSAL delivery whose
policy shared key is absent returns without error and changes the store only
by persisting the raw event in the event log and enqueueing it as pending;
a COMPLETED_PROPOSAL delivery additionally deletes the source proposal and,
when `created_at` is within the last 60 s, sets the policy's resync flag,
before deferring. -/
theorem deferral_frame :
    (∀ (u : UserKeys) (now : Nat) (st : Store) (e : NEvent),
      e.kind = POLICY_KIND →
      event_was_deleted st e.id = false →
      policy_exists st e.id = false →
      lookupA st.sharedKeys e.id = none →
      handle_event u now st e =
        ⟨savePendingEvent (saveEvent st e) e, none, none, []⟩) ∧
    (∀ (u : UserKeys) (now : Nat) (st : Store) (e : NEvent) (pid : Nat),
      e.kind = PROPOSAL_KIND →
      event_was_deleted st e.id = false →
      proposal_exists st e.id = false →
      extract_first_event_id e = some pid →
      lookupA st.sharedKeys pid = none →
      handle_event u now st e =
        ⟨savePendingEvent (saveEvent st e) e, none, none, []⟩) ∧
    (∀ (u : UserKeys) (now : Nat) (st : Store) (e : NEvent) (prId polId : Nat),
      e.kind = APPROVED_PROPOSAL_KIND →
      event_was_deleted st e.id = false →
      approved_proposal_exists st e.id = false →
      extract_first_event_id e = some prId →
      (extract_e_tags e).get? 1 = some polId →
      lookupA st.sharedKeys polId = none →
      handle_event u now st e =
        ⟨savePendingEvent (saveEvent st e) e, none, none, []⟩) ∧
    (∀ (u : UserKeys) (now : Nat) (st : Store) (e : NEvent) (prId polId : Nat),
      e.kind = COMPLETED_PROPOSAL_KIND →
      event_was_deleted st e.id = false →
      completed_proposal_exists st e.id = false →
      extract_first_event_id e = some prId →
      (extract_e_tags e).get? 1 = some polId →
      lookupA st.sharedKeys polId = none →
      handle_event u now st e =
        ⟨savePendingEvent
          (if e.createdAt + 60 ≥ now
           then schedule_for_sync (delete_proposal_row (saveEvent st e) prId) polId
           else delete_proposal_row (saveEvent st e) prId) e, none, none, []⟩) := by
  refine ⟨?_, ?_, ?_, ?_⟩
  · intro u now st e hk hdel hex hkey
    unfold handle_event handle_event_dispatch
    rw [hk]
    simp [hdel, hex, hkey, handle_policy, POLICY_KIND, SHARED_KEY_KIND,
      kindNostrConnect]
  · intro u now st e pid hk hdel hex hfst hkey
    unfold handle_event handle_event_dispatch
    rw [hk]
    simp [hdel, hex, hfst, hkey, handle_proposal, PROPOSAL_KIND, SHARED_KEY_KIND,
      POLICY_KIND, kindNostrConnect]
  · intro u now st e prId polId hk hdel hex hfst hsnd hkey
    unfold handle_event handle_event_dispatch
    rw [hk]
    simp only [List.get?_eq_getElem?] at hsnd
    simp [hdel, hex, hfst, hsnd, hkey, handle_approved, APPROVED_PROPOSAL_KIND,
      SHARED_KEY_KIND, POLICY_KIND, PROPOSAL_KIND, kindNostrConnect]
  · intro u now st e prId polId hk hdel hex hfst hsnd hkey
    unfold handle_event handle_event_dispatch
    rw [hk]
    simp only [List.get?_eq_getElem?] at hsnd
    by_cases hc : e.createdAt + 60 ≥ now <;>
      simp [hdel, hex, hfst, hsnd, hkey, hc, handle_completed,
        COMPLETED_PROPOSAL_KIND, SHARED_KEY_KIND, POLICY_KIND, PROPOSAL_KIND,
        APPROVED_PROPOSAL_KIND, kindNostrConnect]

/-- Witness for the amended C1 at a concrete input: a POLICY event deferred
on the empty store. -/
theorem deferral_frame_witness :
    handle_event uA 0 emptyStore c1wEvent =
      ⟨savePendingEvent (saveEvent emptyStore c1wEvent) c1wEvent, none, none, []⟩ :=
  deferral_frame.1 uA 0 emptyStore c1wEvent rfl rfl rfl rfl

/-- C3 counterexample: an APPROVED_PROPOSAL event whose expiration tag (5) is
earlier than the current time (10) sits in the pending queue; the retry loop
re-feeds it to `handle_event` with no expiration check (client.rs:1344-1369),
so the approval is persisted and a `NewApproval` notification is emitted. -/
theorem pending_retry_persists_expired_approval :
    is_expired c3Event 10 = true ∧
    (handle_pending_events_once uA 10 c3Store).2 =
      [Message.notification (Notification.newApproval 11 55)] ∧
    (lookupA (handle_pending_events_once uA 10 c3Store).1.approvals 21).isSome
      = true := by
  decide

/-- C3 (amended): on the live subscription path (client.rs:1474), an event
whose expiration tag is earlier than the current time is dropped before
reaching `handle_event`: no store change, no error, no notification; events
replayed from the pending queue are not re-checked for expiration. -/
theorem live_expired_dropped (u : UserKeys) (now : Nat) (st : Store)
    (e : NEvent) (h : is_expired e now = true) :
    sync_on_event u now st e = ⟨st, none, none, []⟩ := by
  unfold sync_on_event
  rw [h]
  rfl

/-- Witness for the amended C3: the expired approval event is dropped by the
live path at time 10. -/
theorem live_expired_dropped_witness :
    sync_on_event uA 10 emptyStore c3Event = ⟨emptyStore, none, none, []⟩ :=
  live_expired_dropped uA 10 emptyStore c3Event rfl

/-- The SHARED_KEY handler keeps the tombstone set. -/
theorem handle_shared_key_deletedIds_mono (u : UserKeys) (st : Store)
    (e : NEvent) (x : Nat) (hx : x ∈ st.deletedIds) :
    x ∈ (handle_shared_key u st e).store.deletedIds := by
  unfold handle_shared_key
  repeat' split
  all_goals try dsimp only
  all_goals repeat' split
  all_goals first | exact hx | simp_all [saveSharedKey]

/-- The POLICY handler keeps the tombstone set. -/
theorem handle_policy_deletedIds_mono (st : Store) (e : NEvent) (x : Nat)
    (hx : x ∈ st.deletedIds) : x ∈ (handle_policy st e).store.deletedIds := by
  unfold handle_policy
  repeat' split
  all_goals try dsimp only
  all_goals repeat' split
  all_goals
    first
    | exact hx
    | simp_all [savePendingEvent, save_policy_row, save_notification_row]

/-- The PROPOSAL handler keeps the tombstone set. -/
theorem handle_proposal_deletedIds_mono (st : Store) (e : NEvent) (x : Nat)
    (hx : x ∈ st.deletedIds) : x ∈ (handle_proposal st e).store.deletedIds := by
  unfold handle_proposal
  repeat' split
  all_goals try dsimp only
  all_goals repeat' split
  all_goals
    first
    | exact hx
    | simp_all [savePendingEvent, save_proposal_row, save_notification_row]

/-- The APPROVED_PROPOSAL handler keeps the tombstone set. -/
theorem handle_approved_deletedIds_mono (st : Store) (e : NEvent) (x : Nat)
    (hx : x ∈ st.deletedIds) : x ∈ (handle_approved st e).store.deletedIds := by
  unfold handle_approved
  repeat' split
  all_goals try dsimp only
  all_goals repeat' split
  all_goals
    first
    | exact hx
    | simp_all [savePendingEvent, save_approved_proposal_row, save_notification_row]

/-- The COMPLETED_PROPOSAL handler keeps the tombstone set. -/
theorem handle_completed_deletedIds_mono (now : Nat) (st : Store) (e : NEvent)
    (x : Nat) (hx : x ∈ st.deletedIds) :
    x ∈ (handle_completed now st e).store.deletedIds := by
  unfold handle_completed
  repeat' split
  all_goals try dsimp only
  all_goals repeat' split
  all_goals
    first
    | exact hx
    | (simp only [save_completed_proposal_row, savePendingEvent,
         delete_proposal_row, schedule_for_sync_deletedIds]
       exact hx)

/-- The SIGNERS handler keeps the tombstone set. -/
theorem handle_signers_deletedIds_mono (u : UserKeys) (st : Store) (e : NEvent)
    (x : Nat) (hx : x ∈ st.deletedIds) :
    x ∈ (handle_signers u st e).store.deletedIds := by
  unfold handle_signers
  repeat' split
  all_goals try dsimp only
  all_goals repeat' split
  all_goals first | exact hx | simp_all [save_signer_row]

/-- The SHARED_SIGNERS handler keeps the tombstone set. -/
theorem handle_shared_signers_deletedIds_mono (u : UserKeys) (st : Store)
    (e : NEvent) (x : Nat) (hx : x ∈ st.deletedIds) :
    x ∈ (handle_shared_signers u st e).store.deletedIds := by
  unfold handle_shared_signers
  repeat' split
  all_goals try dsimp only
  all_goals repeat' split
  all_goals
    first
    | exact hx
    | simp_all [save_my_shared_signer_row, save_shared_signer_row,
        save_notification_row]

/-- The EventDeletion handler only grows the tombstone set. -/
theorem handle_deletion_deletedIds_mono (st : Store) (e : NEvent) (x : Nat)
    (hx : x ∈ st.deletedIds) : x ∈ (handle_deletion st e).store.deletedIds :=
  delete_fold_deletedIds_mono e.tags st x hx

/-- The ContactList handler keeps the tombstone set. -/
theorem handle_contact_list_deletedIds_mono (st : Store) (e : NEvent) (x : Nat)
    (hx : x ∈ st.deletedIds) :
    x ∈ (handle_contact_list st e).store.deletedIds := by
  simpa [handle_contact_list, save_contacts_row] using hx

/-- The Metadata handler keeps the tombstone set. -/
theorem handle_metadata_deletedIds_mono (st : Store) (e : NEvent) (x : Nat)
    (hx : x ∈ st.deletedIds) : x ∈ (handle_metadata st e).store.deletedIds := by
  unfold handle_metadata
  repeat' split
  all_goals try dsimp only
  all_goals repeat' split
  all_goals first | exact hx | simp_all [set_metadata_row]

/-- The NostrConnect handler keeps the tombstone set. -/
theorem handle_nostr_connect_deletedIds_mono (u : UserKeys) (now : Nat)
    (st : Store) (e : NEvent) (x : Nat) (hx : x ∈ st.deletedIds) :
    x ∈ (handle_nostr_connect u now st e).store.deletedIds := by
  unfold handle_nostr_connect
  repeat' split
  all_goals try dsimp only
  all_goals repeat' split
  all_goals
    first
    | exact hx
    | simp_all [delete_nostr_connect_session_row, save_nostr_connect_request_row]

/-- No branch of the kind dispatch removes an id from the tombstone set. -/
theorem handle_event_dispatch_deletedIds_mono (u : UserKeys) (now : Nat)
    (st : Store) (e : NEvent) (x : Nat) (hx : x ∈ st.deletedIds) :
    x ∈ (handle_event_dispatch u now st e).store.deletedIds := by
  unfold handle_event_dispatch
  by_cases h1 : (e.kind == SHARED_KEY_KIND) = true
  · rw [if_pos h1]; exact handle_shared_key_deletedIds_mono u st e x hx
  rw [if_neg h1]
  by_cases h2 : (e.kind == POLICY_KIND && !policy_exists st e.id) = true
  · rw [if_pos h2]; exact handle_policy_deletedIds_mono st e x hx
  rw [if_neg h2]
  by_cases h3 : (e.kind == PROPOSAL_KIND && !proposal_exists st e.id) = true
  · rw [if_pos h3]; exact handle_proposal_deletedIds_mono st e x hx
  rw [if_neg h3]
  by_cases h4 : (e.kind == APPROVED_PROPOSAL_KIND && !approved_proposal_exists st e.id) = true
  · rw [if_pos h4]; exact handle_approved_deletedIds_mono st e x hx
  rw [if_neg h4]
  by_cases h5 : (e.kind == COMPLETED_PROPOSAL_KIND && !completed_proposal_exists st e.id) = true
  · rw [if_pos h5]; exact handle_completed_deletedIds_mono now st e x hx
  rw [if_neg h5]
  by_cases h6 : (e.kind == SIGNERS_KIND) = true
  · rw [if_pos h6]; exact handle_signers_deletedIds_mono u st e x hx
  rw [if_neg h6]
  by_cases h7 : (e.kind == SHARED_SIGNERS_KIND) = true
  · rw [if_pos h7]; exact handle_shared_signers_deletedIds_mono u st e x hx
  rw [if_neg h7]
  by_cases h8 : (e.kind == kindEventDeletion) = true
  · rw [if_pos h8]; exact handle_deletion_deletedIds_mono st e x hx
  rw [if_neg h8]
  by_cases h9 : (e.kind == kindContactList) = true
  · rw [if_pos h9]; exact handle_contact_list_deletedIds_mono st e x hx
  rw [if_neg h9]
  by_cases h10 : (e.kind == kindMetadata) = true
  · rw [if_pos h10]; exact handle_metadata_deletedIds_mono st e x hx
  rw [if_neg h10]
  by_cases h11 : (e.kind == kindNostrConnect && nostr_connect_session_exists st e.pubkey) = true
  · rw [if_pos h11]; exact handle_nostr_connect_deletedIds_mono u now st e x hx
  rw [if_neg h11]
  exact hx

/-- No branch of `handle_event` ever removes an id from the tombstone set. -/
theorem handle_event_deletedIds_mono (u : UserKeys) (now : Nat) (st : Store)
    (e : NEvent) (x : Nat) (hx : x ∈ st.deletedIds) :
    x ∈ (handle_event u now st e).store.deletedIds := by
  unfold handle_event
  split
  · exact hx
  apply handle_event_dispatch_deletedIds_mono
  split
  · simpa using hx
  · exact hx

/-- Processing an EventDeletion event tombstones every event id it
references. -/
theorem handle_event_deletion_tombstones (u : UserKeys) (now : Nat)
    (st : Store) (d : NEvent) (x : Nat)
    (hk : d.kind = kindEventDeletion)
    (hnd : event_was_deleted st d.id = false)
    (ht : NTag.event x ∈ d.tags) :
    x ∈ (handle_event u now st d).store.deletedIds := by
  unfold handle_event handle_event_dispatch
  rw [hk]
  simp [hnd, handle_deletion, kindEventDeletion, kindNostrConnect,
    SHARED_KEY_KIND, POLICY_KIND, PROPOSAL_KIND, APPROVED_PROPOSAL_KIND,
    COMPLETED_PROPOSAL_KIND, SIGNERS_KIND, SHARED_SIGNERS_KIND]
  exact delete_fold_deletedIds_adds _ _ _ ht

/-- Tombstones survive any further sequence of deliveries. -/
theorem handle_many_deletedIds_mono (L : List (UserKeys × Nat × NEvent))
    (st : Store) (x : Nat) (hx : x ∈ st.deletedIds) :
    x ∈ (handle_many L st).deletedIds := by
  induction L generalizing st with
  | nil => exact hx
  | cons p rest ih =>
    exact ih _ (handle_event_deletedIds_mono p.1 p.2.1 st p.2.2 x hx)

/-- C2: tombstone dominance. Once the reducer processes an EventDeletion
event `d` that references event id `e.id` (client.rs:1667-1672), any later
delivery of an event with that id — after arbitrarily many intervening
deliveries — is dropped by the tombstone check (client.rs:1520-1524): the
store is unchanged, no error, no notification, no output, so no domain
entity is re-created from it. -/
theorem tombstone_dominance (u u' : UserKeys) (now now' : Nat) (st : Store)
    (d e : NEvent) (L : List (UserKeys × Nat × NEvent))
    (hk : d.kind = kindEventDeletion)
    (hnd : event_was_deleted st d.id = false)
    (ht : NTag.event e.id ∈ d.tags) :
    handle_event u' now' (handle_many L (handle_event u now st d).store) e =
      ⟨handle_many L (handle_event u now st d).store, none, none, []⟩ := by
  apply handle_event_tombstone_drop
  have h1 := handle_event_deletion_tombstones u now st d e.id hk hnd ht
  have h2 := handle_many_deletedIds_mono L _ e.id h1
  simpa [event_was_deleted] using h2

/-- Witness for C2 at a concrete input: event 21 is deleted, an unrelated
policy event is delivered in between, and the replay of id 21 is a no-op. -/
theorem tombstone_dominance_witness :
    handle_event uA 9 c2St2 c2Evt = ⟨c2St2, none, none, []⟩ :=
  tombstone_dominance uA uA 0 9 emptyStore c2Del c2Evt [(uA, 5, c2Mid)]
    rfl rfl (by decide)

/-- A key that `lookupA` cannot find is not among the stored keys. -/
theorem lookupA_none_not_mem {α : Type} (l : List (Nat × α)) (k : Nat)
    (h : lookupA l k = none) : k ∉ l.map Prod.fst := by
  induction l with
  | nil => simp
  | cons a t ih =>
    obtain ⟨ka, va⟩ := a
    unfold lookupA at h
    by_cases hk : ka = k
    · rw [if_pos hk] at h
      cases h
    · rw [if_neg hk] at h
      simp only [List.map_cons, List.mem_cons]
      rintro (h' | h')
      · exact hk h'.symm
      · exact ih h h'

/-- The SHARED_KEY handler either leaves the shared-key index unchanged or
conses one binding whose policy id was absent (the first-seen guard,
client.rs:1534). -/
theorem handle_shared_key_sharedKeys_cases (u : UserKeys) (st : Store)
    (e : NEvent) :
    (handle_shared_key u st e).store.sharedKeys = st.sharedKeys ∨
    ∃ pid k, lookupA st.sharedKeys pid = none ∧
      (handle_shared_key u st e).store.sharedKeys = (pid, k) :: st.sharedKeys := by
  unfold handle_shared_key
  repeat' split
  all_goals
    first
    | exact Or.inl rfl
    | (refine Or.inr ⟨_, _, ?_, rfl⟩
       simp_all [shared_key_exists_for_policy, Option.not_isSome_iff_eq_none])

/-- The SHARED_KEY handler preserves uniqueness of shared keys per policy. -/
theorem handle_shared_key_sharedKeys_nodup (u : UserKeys) (st : Store)
    (e : NEvent) (h : (st.sharedKeys.map Prod.fst).Nodup) :
    ((handle_shared_key u st e).store.sharedKeys.map Prod.fst).Nodup := by
  rcases handle_shared_key_sharedKeys_cases u st e with heq | ⟨pid, k, hnone, heq⟩
  · rw [heq]; exact h
  · rw [heq]
    simp only [List.map_cons]
    exact List.nodup_cons.mpr ⟨lookupA_none_not_mem _ _ hnone, h⟩

@[simp]
theorem handle_policy_sharedKeys (st : Store) (e : NEvent) :
    (handle_policy st e).store.sharedKeys = st.sharedKeys := by
  unfold handle_policy
  repeat' split
  all_goals try dsimp only
  all_goals repeat' split
  all_goals rfl

@[simp]
theorem handle_proposal_sharedKeys (st : Store) (e : NEvent) :
    (handle_proposal st e).store.sharedKeys = st.sharedKeys := by
  unfold handle_proposal
  repeat' split
  all_goals try dsimp only
  all_goals repeat' split
  all_goals rfl

@[simp]
theorem handle_approved_sharedKeys (st : Store) (e : NEvent) :
    (handle_approved st e).store.sharedKeys = st.sharedKeys := by
  unfold handle_approved
  repeat' split
  all_goals try dsimp only
  all_goals repeat' split
  all_goals rfl

@[simp]
theorem handle_completed_sharedKeys (now : Nat) (st : Store) (e : NEvent) :
    (handle_completed now st e).store.sharedKeys = st.sharedKeys := by
  unfold handle_completed
  repeat' split
  all_goals try dsimp only
  all_goals repeat' split
  all_goals
    first
    | rfl
    | (simp only [save_completed_proposal_row, savePendingEvent,
         delete_proposal_row, schedule_for_sync_sharedKeys])

@[simp]
theorem handle_signers_sharedKeys (u : UserKeys) (st : Store) (e : NEvent) :
    (handle_signers u st e).store.sharedKeys = st.sharedKeys := by
  unfold handle_signers
  repeat' split
  all_goals rfl

@[simp]
theorem handle_shared_signers_sharedKeys (u : UserKeys) (st : Store)
    (e : NEvent) :
    (handle_shared_signers u st e).store.sharedKeys = st.sharedKeys := by
  unfold handle_shared_signers
  repeat' split
  all_goals try dsimp only
  all_goals repeat' split
  all_goals rfl

@[simp]
theorem handle_deletion_sharedKeys (st : Store) (e : NEvent) :
    (handle_deletion st e).store.sharedKeys = st.sharedKeys :=
  delete_fold_sharedKeys e.tags st

@[simp]
theorem handle_contact_list_sharedKeys (st : Store) (e : NEvent) :
    (handle_contact_list st e).store.sharedKeys = st.sharedKeys := rfl

@[simp]
theorem handle_metadata_sharedKeys (st : Store) (e : NEvent) :
    (handle_metadata st e).store.sharedKeys = st.sharedKeys := by
  unfold handle_metadata
  repeat' split
  all_goals rfl

@[simp]
theorem handle_nostr_connect_sharedKeys (u : UserKeys) (now : Nat)
    (st : Store) (e : NEvent) :
    (handle_nostr_connect u now st e).store.sharedKeys = st.sharedKeys := by
  unfold handle_nostr_connect
  repeat' split
  all_goals rfl

/-- The kind dispatch preserves uniqueness of shared keys per policy. -/
theorem handle_event_dispatch_sharedKeys_nodup (u : UserKeys) (now : Nat)
    (st : Store) (e : NEvent) (h : (st.sharedKeys.map Prod.fst).Nodup) :
    ((handle_event_dispatch u now st e).store.sharedKeys.map Prod.fst).Nodup := by
  unfold handle_event_dispatch
  by_cases h1 : (e.kind == SHARED_KEY_KIND) = true
  · rw [if_pos h1]; exact handle_shared_key_sharedKeys_nodup u st e h
  rw [if_neg h1]
  by_cases h2 : (e.kind == POLICY_KIND && !policy_exists st e.id) = true
  · rw [if_pos h2, handle_policy_sharedKeys]; exact h
  rw [if_neg h2]
  by_cases h3 : (e.kind == PROPOSAL_KIND && !proposal_exists st e.id) = true
  · rw [if_pos h3, handle_proposal_sharedKeys]; exact h
  rw [if_neg h3]
  by_cases h4 : (e.kind == APPROVED_PROPOSAL_KIND && !approved_proposal_exists st e.id) = true
  · rw [if_pos h4, handle_approved_sharedKeys]; exact h
  rw [if_neg h4]
  by_cases h5 : (e.kind == COMPLETED_PROPOSAL_KIND && !completed_proposal_exists st e.id) = true
  · rw [if_pos h5, handle_completed_sharedKeys]; exact h
  rw [if_neg h5]
  by_cases h6 : (e.kind == SIGNERS_KIND) = true
  · rw [if_pos h6, handle_signers_sharedKeys]; exact h
  rw [if_neg h6]
  by_cases h7 : (e.kind == SHARED_SIGNERS_KIND) = true
  · rw [if_pos h7, handle_shared_signers_sharedKeys]; exact h
  rw [if_neg h7]
  by_cases h8 : (e.kind == kindEventDeletion) = true
  · rw [if_pos h8, handle_deletion_sharedKeys]; exact h
  rw [if_neg h8]
  by_cases h9 : (e.kind == kindContactList) = true
  · rw [if_pos h9, handle_contact_list_sharedKeys]; exact h
  rw [if_neg h9]
  by_cases h10 : (e.kind == kindMetadata) = true
  · rw [if_pos h10, handle_metadata_sharedKeys]; exact h
  rw [if_neg h10]
  by_cases h11 : (e.kind == kindNostrConnect && nostr_connect_session_exists st e.pubkey) = true
  · rw [if_pos h11, handle_nostr_connect_sharedKeys]; exact h
  rw [if_neg h11]
  exact h

/-- C6: at most one shared key per policy, first seen wins. Part one: when a
shared key for the tagged policy id is already stored, processing a further
SHARED_KEY event for that policy leaves the shared-key index (hence the
stored key) unchanged (client.rs:1534). Part two: the reducer preserves the
invariant that policy ids in the shared-key index are unique, so the store
holds at most one `K_p` per policy. -/
theorem shared_key_first_seen :
    (∀ (u : UserKeys) (now : Nat) (st : Store) (e : NEvent) (pid : Nat),
      e.kind = SHARED_KEY_KIND →
      extract_first_event_id e = some pid →
      (lookupA st.sharedKeys pid).isSome = true →
      (handle_event u now st e).store.sharedKeys = st.sharedKeys) ∧
    (∀ (u : UserKeys) (now : Nat) (st : Store) (e : NEvent),
      (st.sharedKeys.map Prod.fst).Nodup →
      ((handle_event u now st e).store.sharedKeys.map Prod.fst).Nodup) := by
  constructor
  · intro u now st e pid hk hfst hsome
    unfold handle_event
    split
    · rfl
    unfold handle_event_dispatch
    rw [hk]
    simp [handle_shared_key, hfst, shared_key_exists_for_policy, hsome,
      SHARED_KEY_KIND, kindNostrConnect]
  · intro u now st e h
    unfold handle_event
    split
    · exact h
    apply handle_event_dispatch_sharedKeys_nodup
    split
    · simpa using h
    · exact h

/-- Witness for C6 at a concrete input: policy 7 already has key 9; a second
SHARED_KEY event carrying key 13 leaves the index unchanged. -/
theorem shared_key_first_seen_witness :
    (handle_event uA 0 c6Store c6Event).store.sharedKeys = c6Store.sharedKeys :=
  shared_key_first_seen.1 uA 0 c6Store c6Event 7 rfl rfl rfl

/-- Filtering out a key makes its lookup fail. -/
theorem lookupA_filter_ne {α : Type} (l : List (Nat × α)) (k : Nat) :
    lookupA (l.filter (fun kv => kv.1 != k)) k = none := by
  induction l with
  | nil => rfl
  | cons a t ih =>
    obtain ⟨ka, va⟩ := a
    rw [List.filter_cons]
    by_cases hk : ka = k
    · simpa [hk] using ih
    · simpa [hk, lookupA] using ih

/-- Erasing a key makes its lookup fail. -/
theorem lookupA_eraseA_self {α : Type} (l : List (Nat × α)) (k : Nat) :
    lookupA (eraseA l k) k = none :=
  lookupA_filter_ne l k

/-- `delete_proposal_by_id` never broadcasts a transaction: its only outputs
are relay publishes. -/
theorem delete_proposal_by_id_no_broadcast (now delEid : Nat) (sendOk : Bool)
    (st : Store) (proposalId tx : Nat) :
    Output.broadcastTx tx ∉ (delete_proposal_by_id now delEid sendOk st proposalId).2.1 := by
  unfold delete_proposal_by_id send_event
  repeat' split
  all_goals simp_all

/-- C4: after a successful `finalize(pid)`, the proposal row is gone (so
`get_proposal` returns `ProposalNotFound`), the completed proposal is stored
keyed by the id of the newly published COMPLETED_PROPOSAL event and
associated with the original policy id, and the chain-indexer broadcast
happens exactly in the Spending variant (client.rs:1129-1177). -/
theorem finalize_postconditions (now ceid deid : Nat) (endpoint : Option Nat)
    (s1 s2 : Bool) (st : Store) (pid polId : Nat) (prop : ProposalData)
    (st' : Store) (out : List Output) (c : CompletedData)
    (hp : lookupA st.proposals pid = some (polId, prop))
    (h : finalize now ceid deid endpoint s1 s2 st pid = (st', out, .ok c)) :
    lookupA st'.proposals pid = none ∧
    lookupA st'.completedProposals ceid = some (polId, c) ∧
    (match c with
     | .spending _ tx => Output.broadcastTx tx ∈ out
     | .proofOfReserve _ _ _ => ∀ tx, Output.broadcastTx tx ∉ out) := by
  unfold finalize at h
  rw [hp] at h
  dsimp only at h
  repeat' split at h
  all_goals try simp at h
  rename_i xk k hkey xc completed hfin bstep st0 out0 hbs xs st1 out1 hsend
  obtain ⟨h1, h2, h3⟩ := h
  subst h1
  subst h2
  subst h3
  refine ⟨?_, ?_, ?_⟩
  · simp [save_completed_proposal_row, delete_proposal_row, lookupA_eraseA_self]
  · simp [save_completed_proposal_row, lookupA]
  · unfold send_event at hsend
    split at hsend
    · simp only [Prod.mk.injEq] at hsend
      obtain ⟨hst1, hout1, -⟩ := hsend
      subst hout1
      cases completed with
      | spending txid tx =>
        cases endpoint with
        | none => simp at hbs
        | some v =>
          simp only [Prod.mk.injEq, Option.some.injEq] at hbs
          obtain ⟨hst0, hout0⟩ := hbs
          subst hout0
          simp
      | proofOfReserve message psbt descriptor =>
        simp only [Prod.mk.injEq, Option.some.injEq] at hbs
        obtain ⟨hst0, hout0⟩ := hbs
        subst hout0
        intro tx
        simp only [List.nil_append, List.mem_append]
        rintro (hmem | hmem)
        · simp at hmem
        · exact delete_proposal_by_id_no_broadcast now deid s2 st1 pid tx hmem
    · simp at hsend

/-- Witness for C4 at a concrete input: finalizing spending proposal 11 with
one approval, endpoint set and successful sends. -/
theorem finalize_postconditions_witness :
    lookupA c4Res.1.proposals 11 = none ∧
    lookupA c4Res.1.completedProposals 30 = some (7, CompletedData.spending 2 2) ∧
    Output.broadcastTx 2 ∈ c4Res.2.1 :=
  finalize_postconditions 100 30 31 (some 1) true true c4Store 11 7
    (.spending 50 1 2) c4Res.1 c4Res.2.1 (CompletedData.spending 2 2) rfl rfl

/-- The raw event of a `send_event` call is in the event log of the
resulting store, whether or not the send succeeded. -/
theorem lookupA_saveEvent_isSome (st : Store) (e : NEvent) :
    (lookupA (saveEvent st e).events e.id).isSome = true := by
  unfold saveEvent
  split
  · rename_i h
    exact h
  · simp [lookupA]

/-- `send_event` leaves the policy index alone. -/
theorem send_event_policies (st : Store) (e : NEvent) (ok : Bool)
    (st' : Store) (out : List Output) (r : Option HError)
    (h : send_event st e ok = (st', out, r)) : st'.policies = st.policies := by
  unfold send_event at h
  split at h <;>
    (simp only [Prod.mk.injEq] at h
     obtain ⟨h1, -, -⟩ := h
     subst h1
     simp)

/-- The shared-key publication loop of `save_policy` leaves the policy index
alone. -/
theorem publish_shared_keys_policies (u : UserKeys)
    (now policyEid sharedKey : Nat) (skEid : Nat → Nat) (net : Nat → Bool)
    (pks : List Nat) : ∀ (st : Store) (outs : List Output) (i : Nat)
      (st' : Store) (outs' : List Output) (r : Option HError),
      publish_shared_keys u now policyEid sharedKey skEid net st outs i pks
        = (st', outs', r) →
      st'.policies = st.policies := by
  induction pks with
  | nil =>
    intro st outs i st' outs' r h
    unfold publish_shared_keys at h
    simp only [Prod.mk.injEq] at h
    obtain ⟨h1, -, -⟩ := h
    subst h1
    rfl
  | cons pk rest ih =>
    intro st outs i st' outs' r h
    unfold publish_shared_keys at h
    dsimp only at h
    split at h
    · rename_i st1 out1 er heq
      simp only [Prod.mk.injEq] at h
      obtain ⟨h1, -, -⟩ := h
      subst h1
      exact send_event_policies _ _ _ _ _ _ heq
    · rename_i st1 out1 heq
      exact (ih _ _ _ _ _ _ h).trans (send_event_policies _ _ _ _ _ _ heq)

/-- When `save_policy` returns an error, the policy index is exactly as it
was before the call: the Policy domain object was not cached. -/
theorem save_policy_error_no_policy_cache (u : UserKeys)
    (now sharedKey policyEid : Nat) (skEid : Nat → Nat) (net : Nat → Bool)
    (st : Store) (name description descriptor : Nat) (pks : List Nat)
    (st' : Store) (out : List Output) (er : HError)
    (h : save_policy u now sharedKey policyEid skEid net st name description
        descriptor pks = (st', out, .error er)) :
    st'.policies = st.policies := by
  unfold save_policy at h
  split at h
  · simp only [Prod.mk.injEq] at h
    obtain ⟨h1, -, -⟩ := h
    subst h1
    rfl
  split at h
  · simp only [Prod.mk.injEq] at h
    obtain ⟨h1, -, -⟩ := h
    subst h1
    rfl
  dsimp only at h
  split at h
  · rename_i st1 outs heq
    simp only [Prod.mk.injEq] at h
    obtain ⟨h1, -, -⟩ := h
    subst h1
    exact publish_shared_keys_policies u now policyEid sharedKey skEid net _
      _ _ _ _ _ _ heq
  · rename_i st1 outs heq
    split at h
    · rename_i st2 out2 heq2
      simp only [Prod.mk.injEq] at h
      obtain ⟨h1, -, -⟩ := h
      subst h1
      exact (send_event_policies _ _ _ _ _ _ heq2).trans
        (publish_shared_keys_policies u now policyEid sharedKey skEid net _
          _ _ _ _ _ _ heq)
    · simp at h

/-- C7 counterexample: in `save_policy` for two cosigners where the POLICY
event send fails (both SHARED_KEY sends succeed), the call errors with the
raw policy event already in the event log, but the Policy domain object is
NOT yet persisted — the cache steps (client.rs:858-860) run only after the
publish (client.rs:854-856), refuting "local persistence happens before the
relay publish ... in particular ... the domain object". -/
theorem save_policy_caches_policy_after_publish_counterexample :
    c7Res.2.2 = Except.error HError.sendFailed ∧
    lookupA c7Res.1.policies 3 = none ∧
    (lookupA c7Res.1.events 3).isSome = true :=
  ⟨rfl, rfl, rfl⟩

/-- C7 (amended): within each operation the raw event record is persisted to
the event log before the relay send (`send_event`, client.rs:512-518), so on
send failure the raw event is already committed and will be rebroadcast; but
the domain object an operation creates is cached only after a successful
publish — when `save_policy` returns an error its policy index is untouched. -/
theorem local_commit_before_publish :
    (∀ (st : Store) (e : NEvent) (ok : Bool),
      (lookupA (send_event st e ok).1.events e.id).isSome = true) ∧
    (∀ (u : UserKeys) (now sharedKey policyEid : Nat) (skEid : Nat → Nat)
        (net : Nat → Bool) (st : Store) (name description descriptor : Nat)
        (pks : List Nat) (st' : Store) (out : List Output) (er : HError),
      save_policy u now sharedKey policyEid skEid net st name description
        descriptor pks = (st', out, .error er) →
      st'.policies = st.policies) := by
  constructor
  · intro st e ok
    unfold send_event
    split <;> exact lookupA_saveEvent_isSome st e
  · intro u now sharedKey policyEid skEid net st name description descriptor
      pks st' out er h
    exact save_policy_error_no_policy_cache u now sharedKey policyEid skEid
      net st name description descriptor pks st' out er h

/-- Witness for the amended C7 at the concrete failing-send run. -/
theorem local_commit_before_publish_witness :
    c7Res.1.policies = emptyStore.policies :=
  local_commit_before_publish.2 uA 0 9 3 (fun i => 40 + i) c7Net emptyStore
    1 1 5 [101, 102] c7Res.1 c7Res.2.1 HError.sendFailed rfl

/-- Recipient tags carry no expiration, so the first expiration tag of an
APPROVED event is the one appended after them. -/
theorem first_expiration_pubkeys_append (pks : List Nat) (rest : List NTag) :
    (pks.map (fun p => NTag.pubKey p) ++ rest).findSome?
      (fun t => match t with | .expiration ts => some ts | _ => none) =
    rest.findSome?
      (fun t => match t with | .expiration ts => some ts | _ => none) := by
  induction pks with
  | nil => rfl
  | cons p t ih => exact ih

/-- An event published by `send_event` is the event that was passed in. -/
theorem send_event_out_publish (st : Store) (ev : NEvent) (ok : Bool)
    (st' : Store) (outs : List Output) (r : Option HError)
    (h : send_event st ev ok = (st', outs, r)) (e : NEvent)
    (hm : Output.publish e ∈ outs) : e = ev := by
  unfold send_event at h
  split at h <;>
    (simp only [Prod.mk.injEq] at h
     obtain ⟨-, houts, -⟩ := h
     subst houts)
  · simpa using hm
  · simp at hm

/-- C8: every APPROVED_PROPOSAL event published by `approve`
(client.rs:962-1014) or `approve_with_signed_psbt` (client.rs:1016-1060)
carries an expiration tag equal to the event's `created_at` plus 7 days
(`APPROVED_PROPOSAL_EXPIRATION`); both derive from the operation's single
clock sample `now`. -/
theorem approved_expiration_tag :
    (∀ (u : UserKeys) (now eid : Nat) (ok : Bool) (st : Store) (pid : Nat)
        (e : NEvent),
      Output.publish e ∈ (approve u now eid ok st pid).2.1 →
      first_expiration e = some (e.createdAt + APPROVED_PROPOSAL_EXPIRATION)) ∧
    (∀ (u : UserKeys) (now eid : Nat) (ok : Bool) (st : Store)
        (pid psbt : Nat) (e : NEvent),
      Output.publish e ∈ (approve_with_signed_psbt u now eid ok st pid psbt).2.1 →
      first_expiration e = some (e.createdAt + APPROVED_PROPOSAL_EXPIRATION)) := by
  constructor
  · intro u now eid ok st pid e hmem
    unfold approve at hmem
    repeat' (first | split at hmem | dsimp only at hmem)
    all_goals try simp at hmem
    all_goals
      (rename_i heq
       have he := send_event_out_publish _ _ _ _ _ _ heq e hmem
       subst he
       simp [first_expiration, first_expiration_pubkeys_append])
  · intro u now eid ok st pid psbt e hmem
    unfold approve_with_signed_psbt at hmem
    repeat' (first | split at hmem | dsimp only at hmem)
    all_goals try simp at hmem
    all_goals
      (rename_i heq
       have he := send_event_out_publish _ _ _ _ _ _ heq e hmem
       subst he
       simp [first_expiration, first_expiration_pubkeys_append])

/-- Witness for C8 at a concrete input: the event `approve` publishes for
proposal 11 at time 50 carries expiration `50 + 7 days`. -/
theorem approved_expiration_tag_witness :
    first_expiration c8Event =
      some (c8Event.createdAt + APPROVED_PROPOSAL_EXPIRATION) :=
  approved_expiration_tag.1 uA 50 26 true c4Store 11 c8Event (by decide)

end Coinstr
